import Mathlib

/-!
Shallow embedding of the event-thread subsystem of brother-scand
(src/event_thread.c), together with a model of the concurrent queue
interface it uses.  The file con_queue.c is not part of the sources
given, so the queue semantics (FIFO push at the tail, pop of the head,
interruptible blocking pop) is modelled from the specification; every
other definition is translated directly from src/event_thread.c.

Machine integers: thread identifiers are C size_t values; the only place
where wrap-around matters is get_event_thread, which computes the array
index thread_id - 1 in size_t arithmetic, so the model computes it
modulo 2 ^ 64.  Statuses are C int values, modelled as Int.

Fallible C calls (strdup, calloc, pthread_create) are modelled by
explicit Bool parameters telling whether the allocation succeeds, and
free() calls are recorded as Bool flags in the result (the C pointer
stays dangling after free, so the slot fields are left unchanged).
-/

/-- MAX_EVENT_THREADS from src/event_thread.c. -/
def MAX_EVENT_THREADS : Nat := 32

/-- One past the largest size_t value: size_t arithmetic is modulo this. -/
def SIZE_WRAP : Nat := 2 ^ 64

/-- A callback function pointer value.  Cb.stop is event_thread_stop_cb,
which clears the running flag of the thread passed as arg1; Cb.user is
any other callback, identified by an opaque number, which does not touch
the subsystem state. -/
inductive Cb where
  | user : Nat → Cb
  | stop : Cb
deriving DecidableEq

/-- struct event from src/event_thread.c: a callback function pointer
(possibly NULL, hence Option) and two untyped argument slots, modelled
as opaque numbers. -/
structure Event where
  callback : Option Cb
  arg1 : Nat
  arg2 : Nat
deriving DecidableEq

/-- struct event_thread from src/event_thread.c.  The events field is
none while the queue is unallocated; qsize records the size field the
code stores into the freshly allocated queue. -/
structure EventThread where
  running : Bool := false
  name : Option String := none
  events : Option (List Event) := none
  qsize : Nat := 0
  tid : Nat := 0
deriving DecidableEq

/-- The zero-initialised static slot contents. -/
def emptyThread : EventThread := {}

/-- The global registry state: the atomic counter g_thread_cnt and the
static array g_threads.  The array is modelled as a total function on
Nat so that writes past the 32-entry table are representable; indices
below MAX_EVENT_THREADS are the table proper. -/
structure Registry where
  g_thread_cnt : Nat
  g_threads : Nat → EventThread

/-- event_thread_lib_init: the registry at process start, counter zero
and all static slots zero-initialised. -/
def event_thread_lib_init : Registry :=
  { g_thread_cnt := 0, g_threads := fun _ => emptyThread }

/-- Write through the pointer to slot i (C style: the array cell is
updated in place, whatever the index). -/
def setSlot (reg : Registry) (i : Nat) (f : EventThread → EventThread) : Registry :=
  { reg with g_threads := fun j => if j = i then f (reg.g_threads j) else reg.g_threads j }

/-- get_event_thread from src/event_thread.c, returning the array index
it computes: the code rejects only thread_id > MAX_EVENT_THREADS and
then forms the address of g_threads[thread_id - 1], where the
subtraction is size_t arithmetic.  For thread_id = 0 this yields index
2 ^ 64 - 1, far outside the table: the code does NOT reject handle 0. -/
def get_event_thread_idx (thread_id : Nat) : Option Nat :=
  if MAX_EVENT_THREADS < thread_id then none
  else some ((thread_id + (SIZE_WRAP - 1)) % SIZE_WRAP)

/-- Modelled from the spec: con_queue_push of con_queue.c appends the
payload at the tail of the FIFO. -/
def con_queue_push (q : List Event) (e : Event) : List Event := q ++ [e]

/-- Modelled from the spec: con_queue_pop of con_queue.c removes and
returns the head of the FIFO; the none result models the distinguished
interrupted return of the blocking pop when no payload is obtained. -/
def con_queue_pop : List Event → Option (Event × List Event)
  | [] => none
  | e :: rest => some (e, rest)

/-- event_thread_enqueue_event from src/event_thread.c.  allocOk tells
whether the calloc of the wrapping event record succeeds.  Returns the
C status and the updated registry.  Note that the code pushes through
whatever pointer get_event_thread produced, and that the return value
of con_queue_push is ignored: after a successful allocation the
function always returns 0. -/
def event_thread_enqueue_event (reg : Registry) (allocOk : Bool) (thread_id : Nat)
    (callback : Option Cb) (arg1 arg2 : Nat) : Int × Registry :=
  match get_event_thread_idx thread_id with
  | none => (-1, reg)
  | some idx =>
    if allocOk = false then (-1, reg)
    else
      (0, setSlot reg idx (fun t =>
        { t with events := some (con_queue_push (t.events.getD []) ⟨callback, arg1, arg2⟩) }))

/-- Result of event_thread_create: the returned handle, the array index
the call wrote its Worker fields through, which heap objects the error
paths freed, and the updated registry. -/
structure CreateResult where
  handle : Nat
  writtenIdx : Nat
  freedName : Bool
  freedQueue : Bool
  reg : Registry

/-- event_thread_create from src/event_thread.c.  The counter is
fetch-and-incremented unconditionally, the slot index thread_id - 1 is
used without any bounds check, running is set true before any
allocation, and the error paths free exactly what the gotos free in the
C code (err: nothing, name_err: the name, events_err: queue then name).
strdupOk, callocOk, evAllocOk, spawnOk model the success of strdup,
calloc, the event-record allocation inside the nested enqueue call
(whose status the code ignores), and pthread_create; tidVal is the
thread id the OS hands back on a successful spawn. -/
def event_thread_create (reg : Registry) (name : String) (update_cb : Option Cb)
    (arg1 arg2 : Nat) (strdupOk callocOk evAllocOk spawnOk : Bool) (tidVal : Nat) :
    CreateResult :=
  let thread_id := reg.g_thread_cnt + 1
  let reg1 : Registry := { reg with g_thread_cnt := thread_id }
  let idx := thread_id - 1
  let reg2 := setSlot reg1 idx (fun t => { t with running := true })
  if strdupOk = false then
    ⟨0, idx, false, false, reg2⟩
  else
    let reg3 := setSlot reg2 idx (fun t => { t with name := some name })
    if callocOk = false then
      ⟨0, idx, true, false, reg3⟩
    else
      let reg4 := setSlot reg3 idx (fun t => { t with events := some [], qsize := 32 })
      let reg5 := (event_thread_enqueue_event reg4 evAllocOk thread_id update_cb arg1 arg2).2
      if spawnOk = false then
        ⟨0, idx, true, true, reg5⟩
      else
        ⟨thread_id, idx, false, false, setSlot reg5 idx (fun t => { t with tid := tidVal })⟩

/-- Result of event_thread_stop: the C status, the updated registry, and
the tid that pthread_kill sent SIGUSR1 to, when it was reached. -/
structure StopResult where
  status : Int
  reg : Registry
  signaled : Option Nat

/-- event_thread_stop from src/event_thread.c: look the thread up,
enqueue an event whose callback is event_thread_stop_cb and whose arg1
is the thread pointer (modelled by the slot index), and on success send
SIGUSR1 to the worker thread. -/
def event_thread_stop (reg : Registry) (allocOk : Bool) (thread_id : Nat) : StopResult :=
  match get_event_thread_idx thread_id with
  | none => ⟨-1, reg, none⟩
  | some idx =>
    let p := event_thread_enqueue_event reg allocOk thread_id (some Cb.stop) idx 0
    if p.1 = 0 then ⟨0, p.2, some ((p.2.g_threads idx).tid)⟩
    else ⟨-1, p.2, none⟩

/-- event_thread_lib_wait from src/event_thread.c: scan all 32 slots in
index order and join the thread of every slot whose running flag is
set.  The model returns the list of tids joined, in scan order. -/
def event_thread_lib_wait (reg : Registry) : List Nat :=
  ((List.range MAX_EVENT_THREADS).filter (fun i => (reg.g_threads i).running)).map
    (fun i => (reg.g_threads i).tid)

/-- The scan loop of event_thread_lib_shutdown: for each index i in
order, if slot i is running, call event_thread_stop (i + 1).  Returns
the registry after all the stop calls together with the list of handles
stop was called on. -/
def shutdownScan (allocOk : Bool) : List Nat → Registry → Registry × List Nat
  | [], reg => (reg, [])
  | i :: is, reg =>
    if (reg.g_threads i).running then
      let reg2 := (event_thread_stop reg allocOk (i + 1)).reg
      let p := shutdownScan allocOk is reg2
      (p.1, (i + 1) :: p.2)
    else shutdownScan allocOk is reg

/-- Result of event_thread_lib_shutdown: the final registry, the handles
event_thread_stop was called on, and the tids the final
event_thread_lib_wait call joins. -/
structure ShutdownResult where
  reg : Registry
  stopCalls : List Nat
  joined : List Nat

/-- event_thread_lib_shutdown from src/event_thread.c: stop every slot
whose running flag is set during the scan, then wait for all running
threads. -/
def event_thread_lib_shutdown (reg : Registry) (allocOk : Bool) : ShutdownResult :=
  let p := shutdownScan allocOk (List.range MAX_EVENT_THREADS) reg
  ⟨p.1, p.2, event_thread_lib_wait p.1⟩

/-- An observable callback invocation made by the worker loop: either
the per-iteration tick through the retained update record, or the
invocation of a dequeued mailbox event. -/
inductive Obs where
  | update : Cb → Nat → Nat → Obs
  | mail : Option Cb → Nat → Nat → Obs
deriving DecidableEq

/-- Whether a trace entry is a mailbox-event invocation. -/
def Obs.isMail : Obs → Bool
  | Obs.mail _ _ _ => true
  | Obs.update _ _ _ => false

/-- The subtrace of mailbox-event invocations. -/
def mailTrace (t : List Obs) : List Obs := t.filter Obs.isMail

/-- Effect of running one callback on the running flag of the worker it
belongs to: event_thread_stop_cb clears the flag, user callbacks leave
the subsystem state alone. -/
def applyCb : Cb → Bool → Bool
  | Cb.stop, _ => false
  | Cb.user _, r => r

/-- Effect of a possibly-NULL callback pointer.  For the update record
the C code guards the call with an explicit NULL check; a NULL callback
in a dequeued mailbox event would be called unguarded, which is
undefined behaviour in C — the model leaves the flag unchanged there. -/
def applyCbOpt : Option Cb → Bool → Bool
  | none, r => r
  | some c, r => applyCb c r

/-- The trace the tick step of one iteration produces: the C code skips
the call when the update record holds a NULL callback. -/
def tickTrace (upd : Event) : List Obs :=
  match upd.callback with
  | none => []
  | some c => [Obs.update c upd.arg1 upd.arg2]

/-- The state the loop body reads and writes: the running flag of the
worker slot and its mailbox queue. -/
structure LoopState where
  running : Bool
  queue : List Event
deriving DecidableEq

/-- What one or more loop iterations produce: the final state, the trace
of invocations, and the list of event records freed (each mailbox event
is freed immediately after its single invocation). -/
structure RunResult where
  state : LoopState
  trace : List Obs
  freed : List Event
deriving DecidableEq

/-- One iteration of the while body of event_thread_loop: first the
guarded tick through the retained update record, then exactly one pop
attempt on the mailbox; a popped event is invoked and freed, a pop that
returns nothing is not an error and the body simply finishes. -/
def loopIter (upd : Event) (s : LoopState) : RunResult :=
  let r1 := applyCbOpt upd.callback s.running
  match con_queue_pop s.queue with
  | none => ⟨⟨r1, s.queue⟩, tickTrace upd, []⟩
  | some (e, rest) =>
    ⟨⟨applyCbOpt e.callback r1, rest⟩,
      tickTrace upd ++ [Obs.mail e.callback e.arg1 e.arg2], [e]⟩

/-- The while loop of event_thread_loop, fuel-bounded: while the running
flag is set, run one iteration and continue.  The fuel only truncates
the unbounded execution; every claim is stated for arbitrary fuel. -/
def loopRun (upd : Event) : Nat → LoopState → RunResult
  | 0, s => ⟨s, [], []⟩
  | fuel + 1, s =>
    if s.running then
      let it := loopIter upd s
      let r := loopRun upd fuel it.state
      ⟨r.state, it.trace ++ r.trace, it.freed ++ r.freed⟩
    else ⟨s, [], []⟩

/-- What one whole run of the worker thread function produces:
the invocation trace, the records freed right after invocation, the
update record freed when the loop exits (none when it was never
fetched), the records drained and freed by event_thread_destroy without
invocation, and the final running flag. -/
structure LoopResult where
  trace : List Obs
  freedInLoop : List Event
  updFreed : Option Event
  drained : List Event
  finalRunning : Bool

/-- event_thread_loop from src/event_thread.c: bind the SIGUSR1 handler
(sigOk tells whether signal() succeeds), pop the update record ahead of
the loop, run the while loop, and on exit free the update record and
drain the queue through event_thread_destroy, freeing the remaining
records without invoking them.  When the handler cannot be bound, or no
update record is obtained, control goes straight to the out label. -/
def event_thread_loop (sigOk : Bool) (fuel : Nat) (running0 : Bool)
    (q : List Event) : LoopResult :=
  if sigOk = false then ⟨[], [], none, q, running0⟩
  else
    match con_queue_pop q with
    | none => ⟨[], [], none, [], running0⟩
    | some (upd, rest) =>
      let r := loopRun upd fuel ⟨running0, rest⟩
      ⟨r.trace, r.freed, some upd, r.state.queue, r.state.running⟩

/-- One create call of a test scenario: the arguments plus the success
of each fallible step. -/
structure CreateCall where
  name : String
  cb : Option Cb
  arg1 : Nat
  arg2 : Nat
  strdupOk : Bool
  callocOk : Bool
  evAllocOk : Bool
  spawnOk : Bool
  tidVal : Nat

/-- Run a sequence of event_thread_create calls, collecting the handles
they return in order. -/
def runCreates (reg : Registry) : List CreateCall → Registry × List Nat
  | [] => (reg, [])
  | c :: cs =>
    let r := event_thread_create reg c.name c.cb c.arg1 c.arg2
      c.strdupOk c.callocOk c.evAllocOk c.spawnOk c.tidVal
    let p := runCreates r.reg cs
    (p.1, r.handle :: p.2)

/-- A registry on which create has already been called 32 times, every
call succeeding: the counter stands at MAX_EVENT_THREADS.  Only the
counter matters for the further create call, so the slot contents are
left at their initial value. -/
def reg32 : Registry := { g_thread_cnt := MAX_EVENT_THREADS, g_threads := fun _ => emptyThread }

lemma setSlot_cnt (reg : Registry) (i : Nat) (f : EventThread → EventThread) :
    (setSlot reg i f).g_thread_cnt = reg.g_thread_cnt := rfl

lemma setSlot_self (reg : Registry) (i : Nat) (f : EventThread → EventThread) :
    (setSlot reg i f).g_threads i = f (reg.g_threads i) := by
  simp [setSlot]

lemma setSlot_ne (reg : Registry) (i : Nat) (f : EventThread → EventThread)
    (j : Nat) (h : j ≠ i) : (setSlot reg i f).g_threads j = reg.g_threads j := by
  simp [setSlot, h]

lemma SIZE_WRAP_val : SIZE_WRAP = 18446744073709551616 := by
  norm_num [SIZE_WRAP]

/-- For a handle in the valid range, get_event_thread addresses the
in-table slot thread_id - 1. -/
lemma get_event_thread_idx_valid (id : Nat) (h1 : 1 ≤ id) (h2 : id ≤ MAX_EVENT_THREADS) :
    get_event_thread_idx id = some (id - 1) := by
  have hm : MAX_EVENT_THREADS = 32 := rfl
  have hno : ¬ MAX_EVENT_THREADS < id := by omega
  have h3 : id + (SIZE_WRAP - 1) = (id - 1) + SIZE_WRAP := by
    rw [SIZE_WRAP_val]; omega
  have h4 : (id + (SIZE_WRAP - 1)) % SIZE_WRAP = id - 1 := by
    rw [h3, Nat.add_mod_right, Nat.mod_eq_of_lt]
    rw [SIZE_WRAP_val]; omega
  simp [get_event_thread_idx, hno, h4]

/-- Enqueueing only pushes into the events field: the running flag and
the tid of every slot are untouched. -/
lemma enqueue_preserves_running_tid (reg : Registry) (ok : Bool) (id : Nat)
    (cb : Option Cb) (a1 a2 j : Nat) :
    ((event_thread_enqueue_event reg ok id cb a1 a2).2.g_threads j).running
        = (reg.g_threads j).running
    ∧ ((event_thread_enqueue_event reg ok id cb a1 a2).2.g_threads j).tid
        = (reg.g_threads j).tid := by
  unfold event_thread_enqueue_event
  cases hg : get_event_thread_idx id with
  | none => exact ⟨rfl, rfl⟩
  | some idx =>
    by_cases hok : ok = false
    · simp [hok]
    · simp only [hok, if_false, setSlot]
      by_cases hj : j = idx <;> simp [hj]

/-- event_thread_stop only pushes into one events field: the running
flag and the tid of every slot are untouched. -/
lemma stop_preserves_running_tid (reg : Registry) (ok : Bool) (id j : Nat) :
    (((event_thread_stop reg ok id).reg).g_threads j).running = (reg.g_threads j).running
    ∧ (((event_thread_stop reg ok id).reg).g_threads j).tid = (reg.g_threads j).tid := by
  unfold event_thread_stop
  cases hg : get_event_thread_idx id with
  | none => exact ⟨rfl, rfl⟩
  | some idx =>
    have h := enqueue_preserves_running_tid reg ok id (some Cb.stop) idx 0 j
    by_cases hz : (event_thread_enqueue_event reg ok id (some Cb.stop) idx 0).1 = 0 <;>
      simp [hz, h.1, h.2]

/-- C1: after MAX_WORKERS (32) create calls the counter stands at 32; a
further create call with all allocations succeeding does NOT fail with
handle 0: it computes slot index 32 — one past the end of the 32-entry
table, an out-of-bounds write in the C code — stores the new Worker
fields there, and returns handle 33.  This refutes the claimed clean
failure and exhibits the out-of-bounds write. -/
theorem create_oob_at_capacity :
    (event_thread_create reg32 "w33" (some (Cb.user 0)) 0 0 true true true true 7).writtenIdx
        = MAX_EVENT_THREADS
    ∧ ¬ ((event_thread_create reg32 "w33" (some (Cb.user 0)) 0 0 true true true true
          7).writtenIdx < MAX_EVENT_THREADS)
    ∧ (event_thread_create reg32 "w33" (some (Cb.user 0)) 0 0 true true true true 7).handle = 33
    ∧ ((event_thread_create reg32 "w33" (some (Cb.user 0)) 0 0 true true true true
          7).reg.g_threads MAX_EVENT_THREADS).running = true := by
  refine ⟨rfl, by decide, rfl, rfl⟩

/-- C2: an enqueue with handle 0 — invalid per the claimed range
[1, MAX_WORKERS] — is NOT rejected: get_event_thread only checks the
upper bound, computes index 0 - 1 in size_t arithmetic (2 ^ 64 - 1,
far outside the 32-entry table, an out-of-bounds access in the C code),
and the enqueue reports success.  This refutes the claimed
fail-iff-out-of-range behaviour at handle 0. -/
theorem enqueue_handle_zero_accepted :
    (event_thread_enqueue_event event_thread_lib_init true 0 (some (Cb.user 1)) 5 6).1 = 0
    ∧ get_event_thread_idx 0 = some (SIZE_WRAP - 1)
    ∧ ¬ (SIZE_WRAP - 1 < MAX_EVENT_THREADS) := by
  refine ⟨rfl, rfl, by rw [SIZE_WRAP_val]; decide⟩

/-- C7: if creation fails, the call returns handle 0 and the error paths
release exactly what was allocated so far in that call: nothing when
duplicating the name failed, the name copy when allocating the mailbox
failed, and both mailbox and name copy when spawning the thread failed;
when every step succeeds, nothing is freed and the handle is the
incremented counter value. -/
theorem create_failure_rollback (reg : Registry) (n : String) (cb : Option Cb)
    (a1 a2 : Nat) (b1 b2 b3 : Bool) (tv : Nat) :
    ((event_thread_create reg n cb a1 a2 false b1 b2 b3 tv).handle = 0
      ∧ (event_thread_create reg n cb a1 a2 false b1 b2 b3 tv).freedName = false
      ∧ (event_thread_create reg n cb a1 a2 false b1 b2 b3 tv).freedQueue = false)
    ∧ ((event_thread_create reg n cb a1 a2 true false b2 b3 tv).handle = 0
      ∧ (event_thread_create reg n cb a1 a2 true false b2 b3 tv).freedName = true
      ∧ (event_thread_create reg n cb a1 a2 true false b2 b3 tv).freedQueue = false)
    ∧ ((event_thread_create reg n cb a1 a2 true true b2 false tv).handle = 0
      ∧ (event_thread_create reg n cb a1 a2 true true b2 false tv).freedName = true
      ∧ (event_thread_create reg n cb a1 a2 true true b2 false tv).freedQueue = true)
    ∧ ((event_thread_create reg n cb a1 a2 true true b2 true tv).handle = reg.g_thread_cnt + 1
      ∧ (event_thread_create reg n cb a1 a2 true true b2 true tv).freedName = false
      ∧ (event_thread_create reg n cb a1 a2 true true b2 true tv).freedQueue = false) :=
  ⟨⟨rfl, rfl, rfl⟩, ⟨rfl, rfl, rfl⟩, ⟨rfl, rfl, rfl⟩, ⟨rfl, rfl, rfl⟩⟩

/-- C4 counterexample: handle 0 is outside the valid handle range, and
the event-record allocation is made to succeed, yet event_thread_stop
returns success (0) instead of the failure the claim requires: the
validity check only rejects handles above MAX_EVENT_THREADS. -/
theorem stop_handle_zero_counterexample :
    (event_thread_stop event_thread_lib_init true 0).status = 0
    ∧ ¬ (1 ≤ (0 : Nat) ∧ (0 : Nat) ≤ MAX_EVENT_THREADS) :=
  ⟨rfl, by decide⟩

/-- C4 (amended): for a handle in [1, MAX_WORKERS] with the
event-record allocation succeeding, stop pushes a stop Event Record
(callback event_thread_stop_cb, arg1 the thread) onto that worker's
mailbox, sends SIGUSR1 to the worker's tid and returns 0; it returns -1
when the record allocation fails, and -1 without touching anything when
the handle exceeds MAX_WORKERS (handle 0, however, is not rejected —
see the counterexample).  Executing a stop record inside the loop
clears the running flag, and a loop whose running flag is cleared makes
no further iterations: the thread terminates. -/
theorem stop_mechanism (reg : Registry) (id : Nat)
    (h1 : 1 ≤ id) (h2 : id ≤ MAX_EVENT_THREADS) :
    (event_thread_stop reg true id).status = 0
    ∧ (event_thread_stop reg true id).signaled = some ((reg.g_threads (id - 1)).tid)
    ∧ ((event_thread_stop reg true id).reg.g_threads (id - 1)).events
        = some (con_queue_push (((reg.g_threads (id - 1)).events).getD [])
            ⟨some Cb.stop, id - 1, 0⟩)
    ∧ (event_thread_stop reg false id).status = -1
    ∧ (∀ id2 ok, MAX_EVENT_THREADS < id2 →
        (event_thread_stop reg ok id2).status = -1
        ∧ (event_thread_stop reg ok id2).signaled = none)
    ∧ (∀ (upd : Event) (s : LoopState) (e : Event) (rest : List Event),
        s.queue = e :: rest → e.callback = some Cb.stop →
        (loopIter upd s).state.running = false)
    ∧ (∀ (upd : Event) (fuel : Nat) (s : LoopState), s.running = false →
        loopRun upd fuel s = ⟨s, [], []⟩) := by
  have hg := get_event_thread_idx_valid id h1 h2
  refine ⟨?_, ?_, ?_, ?_, ?_, ?_, ?_⟩
  · simp [event_thread_stop, hg, event_thread_enqueue_event]
  · simp [event_thread_stop, hg, event_thread_enqueue_event, setSlot_self]
  · simp [event_thread_stop, hg, event_thread_enqueue_event, setSlot_self]
  · simp [event_thread_stop, hg, event_thread_enqueue_event]
  · intro id2 ok hbig
    have : get_event_thread_idx id2 = none := by
      simp [get_event_thread_idx, hbig]
    simp [event_thread_stop, this]
  · intro upd s e rest hq hcb
    simp [loopIter, hq, con_queue_pop, hcb, applyCbOpt, applyCb]
  · intro upd fuel s hr
    cases fuel with
    | zero => rfl
    | succ n => simp [loopRun, hr]

/-- Witness for stop_mechanism at a concrete valid handle. -/
theorem stop_mechanism_witness :
    (event_thread_stop event_thread_lib_init true 1).status = 0 :=
  (stop_mechanism event_thread_lib_init 1 (by decide) (by decide)).1

lemma mailTrace_append (a b : List Obs) :
    mailTrace (a ++ b) = mailTrace a ++ mailTrace b := by
  simp [mailTrace, List.filter_append]

lemma mailTrace_tick (upd : Event) : mailTrace (tickTrace upd) = [] := by
  cases h : upd.callback <;> simp [tickTrace, h, mailTrace, Obs.isMail]

lemma mailTrace_nil : mailTrace [] = [] := rfl

lemma mailTrace_cons_mail (c : Option Cb) (a b : Nat) (t : List Obs) :
    mailTrace (Obs.mail c a b :: t) = Obs.mail c a b :: mailTrace t := by
  simp [mailTrace, Obs.isMail]

/-- The core FIFO invariant of the worker while loop: over any number of
iterations, the freed mailbox records are an initial segment of the
starting queue, the remaining queue is the matching final segment, and
the mailbox-invocation subtrace is exactly that initial segment, in
queue order. -/
lemma loopRun_fifo (upd : Event) (fuel : Nat) : ∀ (s : LoopState), ∃ k,
    (loopRun upd fuel s).freed = s.queue.take k
    ∧ (loopRun upd fuel s).state.queue = s.queue.drop k
    ∧ mailTrace (loopRun upd fuel s).trace
        = (s.queue.take k).map (fun e => Obs.mail e.callback e.arg1 e.arg2) := by
  induction fuel with
  | zero => intro s; exact ⟨0, by simp [loopRun, mailTrace_nil]⟩
  | succ n ih =>
    intro s
    by_cases hr : s.running = true
    · cases hq : s.queue with
      | nil =>
        obtain ⟨k, h1, h2, h3⟩ := ih ⟨applyCbOpt upd.callback true, []⟩
        refine ⟨0, ?_, ?_, ?_⟩ <;>
          simp [loopRun, hr, loopIter, hq, con_queue_pop, mailTrace_append,
            mailTrace_tick, mailTrace_nil, h1, h2, h3]
      | cons e rest =>
        obtain ⟨k, h1, h2, h3⟩ :=
          ih ⟨applyCbOpt e.callback (applyCbOpt upd.callback true), rest⟩
        refine ⟨k + 1, ?_, ?_, ?_⟩ <;>
          simp [loopRun, hr, loopIter, hq, con_queue_pop, mailTrace_append,
            mailTrace_tick, mailTrace_nil, mailTrace_cons_mail, h1, h2, h3]
    · have hr2 : s.running = false := by simpa using hr
      exact ⟨0, by simp [loopRun, hr2, mailTrace_nil]⟩

/-- C3: one iteration of the worker loop, entered with the running flag
set and a non-NULL update callback, first invokes the update callback
with its bound arguments, then makes exactly one dequeue attempt: on an
empty mailbox the body finishes with only the tick in its trace — not
an error, the loop goes back to the flag check — and on a non-empty
mailbox exactly the head event is invoked, after the tick, and that one
record is freed.  The two cases characterise the iteration completely:
at most one mailbox event per iteration, never before the tick. -/
theorem loop_iteration_update_then_one_event (upd : Event) (s : LoopState) (c : Cb)
    (hr : s.running = true) (hc : upd.callback = some c) :
    (s.queue = [] →
      loopIter upd s = ⟨⟨applyCb c true, []⟩, [Obs.update c upd.arg1 upd.arg2], []⟩)
    ∧ (∀ (e : Event) (rest : List Event), s.queue = e :: rest →
      loopIter upd s = ⟨⟨applyCbOpt e.callback (applyCb c true), rest⟩,
        [Obs.update c upd.arg1 upd.arg2, Obs.mail e.callback e.arg1 e.arg2], [e]⟩) := by
  constructor
  · intro hq
    simp [loopIter, hq, con_queue_pop, hc, hr, applyCbOpt, tickTrace]
  · intro e rest hq
    simp [loopIter, hq, con_queue_pop, hc, hr, applyCbOpt, tickTrace]

/-- Witness for loop_iteration_update_then_one_event on a concrete
running state with one pending mailbox event. -/
theorem loop_iteration_update_then_one_event_witness :
    loopIter ⟨some (Cb.user 0), 1, 2⟩ ⟨true, [⟨some (Cb.user 3), 4, 5⟩]⟩
      = ⟨⟨true, []⟩, [Obs.update (Cb.user 0) 1 2, Obs.mail (some (Cb.user 3)) 4 5],
          [⟨some (Cb.user 3), 4, 5⟩]⟩ :=
  (loop_iteration_update_then_one_event ⟨some (Cb.user 0), 1, 2⟩
      ⟨true, [⟨some (Cb.user 3), 4, 5⟩]⟩ (Cb.user 0) rfl rfl).2 _ _ rfl

/-- C5: FIFO — for any worker run, the subtrace of mailbox-event
invocations is exactly an initial segment of the enqueued sequence, in
the order enqueued: no reordering and no priority.  (The queue itself
is the spec-modelled FIFO of con_queue.c.) -/
theorem mailbox_fifo_order (upd : Event) (es : List Event) (fuel : Nat) (r0 : Bool) :
    ∃ k, mailTrace (event_thread_loop true fuel r0 (upd :: es)).trace
        = (es.take k).map (fun e => Obs.mail e.callback e.arg1 e.arg2) := by
  obtain ⟨k, h1, h2, h3⟩ := loopRun_fifo upd fuel ⟨r0, es⟩
  exact ⟨k, by simpa [event_thread_loop, con_queue_pop] using h3⟩

/-- C9: the update record is the first and only item the creation call
places in the new worker's mailbox; during the run it is popped once
ahead of the loop, retained unfreed for the whole run and freed exactly
when the loop exits, while every other record is freed after its single
invocation (the freed-in-loop records are exactly the invoked ones, in
order) and the records still pending at teardown are drained and freed
without invocation. -/
theorem update_record_ownership (reg : Registry) (n : String) (cb : Option Cb)
    (a1 a2 tv : Nat) (upd : Event) (es : List Event) (fuel : Nat)
    (hcnt : reg.g_thread_cnt < MAX_EVENT_THREADS) :
    ((event_thread_create reg n cb a1 a2 true true true true tv).reg.g_threads
        reg.g_thread_cnt).events = some [⟨cb, a1, a2⟩]
    ∧ ∃ k,
      (event_thread_loop true fuel true (upd :: es)).updFreed = some upd
      ∧ (event_thread_loop true fuel true (upd :: es)).freedInLoop = es.take k
      ∧ (event_thread_loop true fuel true (upd :: es)).drained = es.drop k
      ∧ mailTrace (event_thread_loop true fuel true (upd :: es)).trace
          = (es.take k).map (fun e => Obs.mail e.callback e.arg1 e.arg2) := by
  constructor
  · have hg : get_event_thread_idx (reg.g_thread_cnt + 1) = some reg.g_thread_cnt := by
      have := get_event_thread_idx_valid (reg.g_thread_cnt + 1) (by omega) (by omega)
      simpa using this
    simp [event_thread_create, event_thread_enqueue_event, hg, setSlot_self,
      con_queue_push]
  · obtain ⟨k, h1, h2, h3⟩ := loopRun_fifo upd fuel ⟨true, es⟩
    exact ⟨k, rfl, by simpa [event_thread_loop, con_queue_pop] using h1,
      by simpa [event_thread_loop, con_queue_pop] using h2,
      by simpa [event_thread_loop, con_queue_pop] using h3⟩

/-- Witness for update_record_ownership at the initial registry. -/
theorem update_record_ownership_witness :
    ((event_thread_create event_thread_lib_init "probe" (some (Cb.user 0)) 1 2
        true true true true 3).reg.g_threads 0).events
      = some [⟨some (Cb.user 0), 1, 2⟩] :=
  (update_record_ownership event_thread_lib_init "probe" (some (Cb.user 0)) 1 2 3
      ⟨some (Cb.user 0), 1, 2⟩ [] 0 (by decide)).1

/-- A callback that is not the stop callback leaves the running flag
set. -/
lemma applyCbOpt_of_ne_stop (oc : Option Cb) (h : oc ≠ some Cb.stop) :
    applyCbOpt oc true = true := by
  cases oc with
  | none => rfl
  | some c => cases c with
    | user i => rfl
    | stop => exact absurd rfl h

/-- With a NULL update callback and an empty mailbox the loop body is a
no-op: every iteration just re-checks the flag. -/
lemma loopRun_idle (upd : Event) (hu : upd.callback = none) (fuel : Nat) :
    loopRun upd fuel ⟨true, []⟩ = ⟨⟨true, []⟩, [], []⟩ := by
  induction fuel with
  | zero => rfl
  | succ n ih => simp [loopRun, loopIter, con_queue_pop, hu, applyCbOpt, tickTrace, ih]

/-- With a NULL update callback, no stop events pending and enough
iterations, the loop consumes and invokes the whole mailbox, in order,
and frees every record. -/
lemma loopRun_consume (upd : Event) (hu : upd.callback = none) :
    ∀ (es : List Event) (fuel : Nat), es.length ≤ fuel →
    (∀ e ∈ es, e.callback ≠ some Cb.stop) →
    loopRun upd fuel ⟨true, es⟩
      = ⟨⟨true, []⟩, es.map (fun e => Obs.mail e.callback e.arg1 e.arg2), es⟩ := by
  intro es
  induction es with
  | nil => intro fuel _ _; exact loopRun_idle upd hu fuel
  | cons e rest ih =>
    intro fuel hlen hstop
    cases fuel with
    | zero => simp at hlen
    | succ m =>
      have he : e.callback ≠ some Cb.stop := hstop e (by simp)
      have hrest : ∀ x ∈ rest, x.callback ≠ some Cb.stop :=
        fun x hx => hstop x (by simp [hx])
      have hm : rest.length ≤ m := by simpa using hlen
      have hnone : applyCbOpt none true = true := rfl
      have hrun : applyCbOpt e.callback true = true :=
        applyCbOpt_of_ne_stop e.callback he
      simp [loopRun, loopIter, con_queue_pop, hu, tickTrace, hnone, hrun,
        ih m hm hrest]

/-- C10: a worker whose update record carries a NULL callback skips the
tick on every iteration — the NULL pointer is never invoked, so the
whole trace consists of mailbox invocations — and still dequeues and
executes mailbox events normally: with enough iterations every pending
event is invoked, in order, and freed, leaving nothing to drain. -/
theorem null_update_callback_skipped (a1 a2 : Nat) (es : List Event) (fuel : Nat)
    (hstop : ∀ e ∈ es, e.callback ≠ some Cb.stop) (hfuel : es.length ≤ fuel) :
    (event_thread_loop true fuel true (⟨none, a1, a2⟩ :: es)).trace
        = es.map (fun e => Obs.mail e.callback e.arg1 e.arg2)
    ∧ (event_thread_loop true fuel true (⟨none, a1, a2⟩ :: es)).freedInLoop = es
    ∧ (event_thread_loop true fuel true (⟨none, a1, a2⟩ :: es)).drained = [] := by
  have h := loopRun_consume ⟨none, a1, a2⟩ rfl es fuel hfuel hstop
  exact ⟨by simp [event_thread_loop, con_queue_pop, h],
    by simp [event_thread_loop, con_queue_pop, h],
    by simp [event_thread_loop, con_queue_pop, h]⟩

/-- Witness for null_update_callback_skipped with one concrete user
event in the mailbox. -/
theorem null_update_callback_skipped_witness :
    (event_thread_loop true 1 true (⟨none, 0, 0⟩ :: [⟨some (Cb.user 9), 7, 8⟩])).trace
        = [Obs.mail (some (Cb.user 9)) 7 8] :=
  (null_update_callback_skipped 0 0 [⟨some (Cb.user 9), 7, 8⟩] 1 (by decide)
      (by decide)).1

/-- The shutdown scan calls stop on exactly the slots whose running flag
is set at scan time, in index order, and leaves every running flag and
tid unchanged (stop only pushes a mailbox record). -/
lemma shutdownScan_spec (ok : Bool) : ∀ (l : List Nat) (reg : Registry),
    (shutdownScan ok l reg).2
        = (l.filter (fun i => (reg.g_threads i).running)).map (fun i => i + 1)
    ∧ ∀ j, (((shutdownScan ok l reg).1).g_threads j).running = (reg.g_threads j).running
        ∧ (((shutdownScan ok l reg).1).g_threads j).tid = (reg.g_threads j).tid := by
  intro l
  induction l with
  | nil => exact fun reg => ⟨rfl, fun j => ⟨rfl, rfl⟩⟩
  | cons i is ih =>
    intro reg
    by_cases hi : (reg.g_threads i).running = true
    · have hpres := fun j => stop_preserves_running_tid reg ok (i + 1) j
      obtain ⟨ha, hb⟩ := ih ((event_thread_stop reg ok (i + 1)).reg)
      have hf : (fun x => (((event_thread_stop reg ok (i + 1)).reg).g_threads x).running)
          = (fun x => ((reg.g_threads x).running)) :=
        funext fun x => (hpres x).1
      constructor
      · simp only [shutdownScan, hi, if_true]
        rw [ha, hf, List.filter_cons, hi]
        simp
      · intro j
        simp only [shutdownScan, hi, if_true]
        exact ⟨(hb j).1.trans (hpres j).1, (hb j).2.trans (hpres j).2⟩
    · have hi2 : (reg.g_threads i).running = false := by simpa using hi
      obtain ⟨ha, hb⟩ := ih reg
      constructor
      · simp only [shutdownScan, hi2, if_false, Bool.false_eq_true]
        rw [ha, List.filter_cons, hi2]
        simp
      · intro j
        simp only [shutdownScan, hi2, if_false, Bool.false_eq_true]
        exact hb j

/-- C6: shutdown calls stop on exactly the workers whose running flag is
set at the time of its scan, in slot order, and then waits; the wait
joins exactly the threads (tids) of the workers marked running, which
are unchanged by the stop calls since stop only enqueues. -/
theorem shutdown_stops_and_waits_running (reg : Registry) (ok : Bool) :
    (event_thread_lib_shutdown reg ok).stopCalls
      = ((List.range MAX_EVENT_THREADS).filter
          (fun i => (reg.g_threads i).running)).map (fun i => i + 1)
    ∧ (event_thread_lib_shutdown reg ok).joined
      = ((List.range MAX_EVENT_THREADS).filter
          (fun i => (reg.g_threads i).running)).map (fun i => (reg.g_threads i).tid) := by
  obtain ⟨ha, hb⟩ := shutdownScan_spec ok (List.range MAX_EVENT_THREADS) reg
  refine ⟨ha, ?_⟩
  have hrun : (fun i =>
      (((shutdownScan ok (List.range MAX_EVENT_THREADS) reg).1).g_threads i).running)
      = (fun i => ((reg.g_threads i).running)) := funext fun j => (hb j).1
  have htid : (fun i =>
      (((shutdownScan ok (List.range MAX_EVENT_THREADS) reg).1).g_threads i).tid)
      = (fun i => ((reg.g_threads i).tid)) := funext fun j => (hb j).2
  show event_thread_lib_wait (shutdownScan ok (List.range MAX_EVENT_THREADS) reg).1 = _
  unfold event_thread_lib_wait
  rw [hrun, htid]

lemma enqueue_cnt (reg : Registry) (ok : Bool) (id : Nat) (cb : Option Cb)
    (a1 a2 : Nat) :
    (event_thread_enqueue_event reg ok id cb a1 a2).2.g_thread_cnt = reg.g_thread_cnt := by
  unfold event_thread_enqueue_event
  cases hg : get_event_thread_idx id with
  | none => rfl
  | some idx => by_cases hok : ok = false <;> simp [hok, setSlot_cnt]

/-- Every create call, successful or not, advances the counter by one:
handles burnt by failed calls are never handed out again either. -/
lemma create_cnt (reg : Registry) (n : String) (cb : Option Cb) (a1 a2 : Nat)
    (b1 b2 b3 b4 : Bool) (tv : Nat) :
    (event_thread_create reg n cb a1 a2 b1 b2 b3 b4 tv).reg.g_thread_cnt
      = reg.g_thread_cnt + 1 := by
  unfold event_thread_create
  cases b1 <;> cases b2 <;> cases b4 <;>
    simp [setSlot_cnt, enqueue_cnt]

/-- A create call returns either the failure handle 0 or the incremented
counter value. -/
lemma create_handle (reg : Registry) (n : String) (cb : Option Cb) (a1 a2 : Nat)
    (b1 b2 b3 b4 : Bool) (tv : Nat) :
    (event_thread_create reg n cb a1 a2 b1 b2 b3 b4 tv).handle = 0
    ∨ (event_thread_create reg n cb a1 a2 b1 b2 b3 b4 tv).handle
        = reg.g_thread_cnt + 1 := by
  unfold event_thread_create
  cases b1 <;> cases b2 <;> cases b4 <;> simp

lemma runCreates_cnt : ∀ (cs : List CreateCall) (reg : Registry),
    (runCreates reg cs).1.g_thread_cnt = reg.g_thread_cnt + cs.length := by
  intro cs
  induction cs with
  | nil => intro reg; simp [runCreates]
  | cons c cs ih =>
    intro reg
    simp only [runCreates]
    rw [ih, create_cnt]
    simp [List.length_cons]
    omega

lemma runCreates_bound : ∀ (cs : List CreateCall) (reg : Registry) (h : Nat),
    h ∈ (runCreates reg cs).2 → h = 0 ∨ reg.g_thread_cnt < h := by
  intro cs
  induction cs with
  | nil => intro reg h hm; simp [runCreates] at hm
  | cons c cs ih =>
    intro reg h hm
    simp only [runCreates, List.mem_cons] at hm
    cases hm with
    | inl hh =>
      rcases create_handle reg c.name c.cb c.arg1 c.arg2
          c.strdupOk c.callocOk c.evAllocOk c.spawnOk c.tidVal with h0 | h1
      · exact Or.inl (hh.trans h0)
      · exact Or.inr (by rw [hh, h1]; omega)
    | inr hh =>
      rcases ih _ h hh with h0 | h1
      · exact Or.inl h0
      · exact Or.inr (by rw [create_cnt] at h1; omega)

lemma runCreates_pairwise : ∀ (cs : List CreateCall) (reg : Registry),
    List.Pairwise (· < ·) ((runCreates reg cs).2.filter (fun h => h != 0)) := by
  intro cs
  induction cs with
  | nil => intro reg; simp [runCreates]
  | cons c cs ih =>
    intro reg
    simp only [runCreates, List.filter_cons]
    rcases create_handle reg c.name c.cb c.arg1 c.arg2
        c.strdupOk c.callocOk c.evAllocOk c.spawnOk c.tidVal with h0 | h1
    · rw [h0]
      simpa using ih _
    · rw [h1]
      have hne : ((reg.g_thread_cnt + 1) != 0) = true := by simp
      rw [if_pos hne]
      refine List.Pairwise.cons ?_ (ih _)
      intro b hb
      rw [List.mem_filter] at hb
      rcases runCreates_bound cs _ b hb.1 with hb0 | hbig
      · exact absurd hb0 (by simpa using hb.2)
      · rw [create_cnt] at hbig
        omega

/-- C8: across any sequence of create calls, the successful handles are
strictly increasing — hence pairwise distinct and never reused — each
one is the freshly incremented counter value (so all exceed the counter
at the start, making them 1-based and fresh), and the counter advances
by one per call, monotonically. -/
theorem create_handles_monotonic (reg : Registry) (cs : List CreateCall) :
    List.Pairwise (· < ·) ((runCreates reg cs).2.filter (fun h => h != 0))
    ∧ (runCreates reg cs).1.g_thread_cnt = reg.g_thread_cnt + cs.length
    ∧ ∀ h ∈ (runCreates reg cs).2, h = 0 ∨ reg.g_thread_cnt < h :=
  ⟨runCreates_pairwise cs reg, runCreates_cnt cs reg, runCreates_bound cs reg⟩

/-- A concrete all-succeeding create call for witnesses. -/
def demoCall : CreateCall := ⟨"dev", some (Cb.user 0), 0, 0, true, true, true, true, 5⟩

/-- Witness for create_handles_monotonic: two successful creations from
the initial registry yield handles 1 and 2, in particular the first
handle is nonzero and above the initial counter. -/
theorem create_handles_monotonic_witness :
    (1 : Nat) = 0 ∨ event_thread_lib_init.g_thread_cnt < 1 :=
  (create_handles_monotonic event_thread_lib_init [demoCall, demoCall]).2.2 1
    (by decide)
